import Mathlib

/-!
Verification of the admission / registration / lottery core of the
TG_prizes-Moozee bot (`src/bot.py`, `src/db.py`, `src/config.py`).

The Postgres state is embedded shallowly as three Lean lists mirroring
the tables created by `INIT_SQL` in `bot.py`:
  * `public.users`      → `User`
  * `public.entries`    → `Entry`
  * `public.user_prefs` → `PrefsRow`
Each async database operation of `bot.py` becomes a pure Lean function
threading a `DB` value; `None`-able Python strings become `Option String`
(the source stores `x or ""`); timestamps (`now()`) are passed in as a
`Nat` parameter; randomness (`random.uniform`, `random.choice`,
`secrets.choice`) is passed in explicitly (a rational draw value, a
fallback index, a list of candidate participant codes).
-/

namespace Moozee

/-- Row of `public.users` (see `INIT_SQL` in `bot.py`). -/
structure User where
  user_id : Int
  username : String
  first_name : String
  participant_code : String
deriving DecidableEq, Repr

/-- Row of `public.entries` (see `INIT_SQL` in `bot.py`). -/
structure Entry where
  user_id : Int
  username : String
  first_name : String
  code : String
  entry_number : Int
  created_at : Nat
deriving DecidableEq, Repr

/-- Row of `public.user_prefs` (see `INIT_SQL` in `bot.py`): the three
boolean notification flags default to `true`. -/
structure PrefsRow where
  user_id : Int
  notify_results : Bool
  notify_new_video : Bool
  notify_streams : Bool
  created_at : Nat
  updated_at : Nat
deriving DecidableEq, Repr

/-- The whole Postgres database state touched by the bot. -/
structure DB where
  users : List User
  entries : List Entry
  prefs : List PrefsRow
deriving DecidableEq, Repr

/-- Python `x or ""` on an optional string (observably `getD ""`). -/
def orEmpty (s : Option String) : String := s.getD ""

/-- Embeds `select participant_code from public.users where user_id=$1` (first row). -/
def findUser (db : DB) (uid : Int) : Option User :=
  db.users.find? (fun u => u.user_id == uid)

/-- Fresh user_prefs row from `insert into public.user_prefs(user_id) values ($1)`:
all column defaults (`true` flags, `now()` timestamps). -/
def defaultPrefsRow (uid : Int) (now : Nat) : PrefsRow :=
  { user_id := uid, notify_results := true, notify_new_video := true
    notify_streams := true, created_at := now, updated_at := now }

/-- Embeds `insert into public.user_prefs(user_id) values ($1) on conflict (user_id) do nothing`. -/
def insertPrefsIfAbsent (prefs : List PrefsRow) (uid : Int) (now : Nat) : List PrefsRow :=
  if prefs.any (fun p => p.user_id == uid) then prefs
  else prefs ++ [defaultPrefsRow uid now]

/-- Embeds `ensure_user` (`bot.py` lines 231-260).  The `while True` generation loop
draws candidate participant codes from `make_participant_code()`; the embedding
receives the stream of candidates as the list `cands` and returns `none` when no
candidate is fresh (the source loop would keep drawing). -/
def ensure_user (db : DB) (uid : Int) (username first_name : Option String)
    (cands : List String) (now : Nat) : Option (String × DB) :=
  match findUser db uid with
  | some u =>
      -- update public.users set username=…, first_name=… where user_id=…
      let users' := db.users.map (fun v =>
        if v.user_id == uid then
          { v with username := orEmpty username, first_name := orEmpty first_name }
        else v)
      some (u.participant_code,
        { db with users := users', prefs := insertPrefsIfAbsent db.prefs uid now })
  | none =>
      match cands.find? (fun pc => !db.users.any (fun v => v.participant_code == pc)) with
      | none => none
      | some pc =>
          let newUser : User :=
            { user_id := uid, username := orEmpty username
              first_name := orEmpty first_name, participant_code := pc }
          some (pc,
            { db with users := db.users ++ [newUser]
                      prefs := insertPrefsIfAbsent db.prefs uid now })

/-- Embeds `select coalesce(max(entry_number), 0) from public.entries`. -/
def maxEntryNumber (entries : List Entry) : Int :=
  entries.foldl (fun m e => max m e.entry_number) 0

/-- Embeds `register_entry` (`bot.py` lines 263-284): ensure the participant, return an
existing entry's number idempotently, otherwise insert with number `max + 1`. -/
def register_entry (db : DB) (uid : Int) (username first_name : Option String)
    (code : String) (cands : List String) (now : Nat) :
    Option (Int × Bool × String × DB) :=
  match ensure_user db uid username first_name cands now with
  | none => none
  | some (participant_code, db1) =>
    match db1.entries.find? (fun e => e.user_id == uid && e.code == code) with
    | some e => some (e.entry_number, false, participant_code, db1)
    | none =>
        let new_number := maxEntryNumber db1.entries + 1
        let newEntry : Entry :=
          { user_id := uid, username := orEmpty username
            first_name := orEmpty first_name, code := code
            entry_number := new_number, created_at := now }
        some (new_number, true, participant_code,
          { db1 with entries := db1.entries ++ [newEntry] })

/-- Embeds `config.VALID_CODES` (`config.py` lines 46-50). -/
def VALID_CODES : List String := ["HEADSHOTKING", "MOOVICTORY", "CLUTCHGOD"]

/-- Python `str.lower()`, embedded over the underlying character list (the
configured codes and inputs of interest are ASCII). -/
def pyLower (s : String) : String := ⟨s.data.map Char.toLower⟩

/-- Python `str.strip()`: drop leading and trailing whitespace. -/
def pyStrip (s : String) : String :=
  ⟨((s.data.dropWhile Char.isWhitespace).reverse.dropWhile Char.isWhitespace).reverse⟩

/-- Python `str.startswith("/")`. -/
def startsWithSlash (s : String) : Bool :=
  match s.data with
  | [] => false
  | c :: _ => c == '/'

/-- Normalisation performed by `handle_code` (`bot.py` lines 722-726):
`txt = message.text.strip()`, `code_lc = txt.lower()`. -/
def normalizeCode (txt : String) : String := pyLower (pyStrip txt)

/-- Validity check of `handle_code` (`bot.py` lines 726-728):
`code_lc in [c.lower() for c in config.VALID_CODES]`. -/
def isValidCode (txt : String) : Bool :=
  decide (normalizeCode txt ∈ VALID_CODES.map (fun c => pyLower c))

/-- Chat-member status returned by the membership collaborator
(`bot.get_chat_member`). -/
inductive MemberStatus where
  | member | administrator | creator | left | kicked | restricted
deriving DecidableEq, Repr

/-- Embeds `ok_status = ("member", "administrator", "creator")` of `is_subscribed`. -/
def okStatus : MemberStatus → Bool
  | .member => true
  | .administrator => true
  | .creator => true
  | _ => false

/-- Outcome of one `await bot.get_chat_member(...)` call: either a status or a
raised exception (carried as a message string). -/
abbrev MemberCall := Except String MemberStatus

/-- Embeds `is_subscribed` (`bot.py` lines 214-228).  `reqChUsername` is
`REQ_CH_USERNAME`; `callByUsername` / `callById` are the results of the two
collaborator calls.  Exceptions are caught and logged, never propagated: the
function always returns a `Bool`. -/
def is_subscribed (reqChUsername : String) (callByUsername callById : MemberCall) : Bool :=
  let viaUsername :=
    if reqChUsername ≠ "" then
      match callByUsername with
      | .ok st => okStatus st
      | .error _ => false      -- caught, logged, falls through
    else false
  if viaUsername then true
  else
    match callById with
    | .ok st => okStatus st
    | .error _ => false        -- caught, logged: return False

/-- User-visible outcome of `handle_code`. -/
inductive Reply where
  | ignored                                     -- empty text / command
  | invalidCode                                 -- "Кодовое слово неверно"
  | notSubscribed                               -- UNSUB_TEXT + keyboard
  | accepted (entry_number : Int) (pcode : String)
  | duplicate (entry_number : Int) (pcode : String)
  | persistenceFailure                          -- underlying operation failed
deriving DecidableEq, Repr

/-- Embeds `handle_code` (`bot.py` lines 718-754).  Returns the reply, the database
after the update, and whether `register_entry` was performed for this
submission. -/
def handle_code (db : DB) (text : Option String) (uid : Int)
    (username first_name : Option String) (reqChUsername : String)
    (callByUsername callById : MemberCall) (cands : List String) (now : Nat) :
    Reply × DB × Bool :=
  match text with
  | none => (.ignored, db, false)
  | some t =>
    let txt := pyStrip t
    if txt = "" ∨ startsWithSlash txt then (.ignored, db, false)
    else
      let code_lc := pyLower txt
      if code_lc ∉ VALID_CODES.map (fun c => pyLower c) then
        (.invalidCode, db, false)
      else if ¬ is_subscribed reqChUsername callByUsername callById then
        match ensure_user db uid username first_name cands now with
        | none => (.persistenceFailure, db, false)
        | some (_, db') => (.notSubscribed, db', false)
      else
        match register_entry db uid username first_name code_lc cands now with
        | none => (.persistenceFailure, db, true)
        | some (n, is_new, pcode, db') =>
            if is_new then (.accepted n pcode, db', true)
            else (.duplicate n pcode, db', true)

/-! ## Lottery engine (`draw_weighted_winner`, `bot.py` lines 322-373) -/

/-- Embeds `count(distinct e.code)` for one user of the left-joined, grouped query. -/
def codesCountOf (entries : List Entry) (uid : Int) : Nat :=
  (((entries.filter (fun e => e.user_id == uid)).map (fun e => e.code)).dedup).length

/-- All (non-distinct) codes of one user, as collected into `codes_by_user`
from `select user_id, code from public.entries`. -/
def codesOf (entries : List Entry) (uid : Int) : List String :=
  (entries.filter (fun e => e.user_id == uid)).map (fun e => e.code)

/-- One element of the in-memory `pool` list built by `draw_weighted_winner`. -/
structure PoolEntry where
  user_id : Int
  username : String
  first_name : String
  participant_code : String
  codes_count : Nat
  codes : List String
deriving DecidableEq, Repr

/-- The `pool` construction loop of `draw_weighted_winner`: one pool element
per user row with `tickets > 0`, in the enumeration order of the grouped query
result (the query has no `order by`; the row order is whatever the store
returns, which is why it is a parameter here). -/
def buildPool (users : List User) (entries : List Entry) : List PoolEntry :=
  users.filterMap (fun u =>
    let tickets := codesCountOf entries u.user_id
    if tickets ≤ 0 then none
    else some
      { user_id := u.user_id, username := u.username, first_name := u.first_name
        participant_code := u.participant_code, codes_count := tickets
        codes := codesOf entries u.user_id })

/-- The cumulative walk of `draw_weighted_winner`:
`for p, w in zip(pool, weights): if upto + w >= r: return p; upto += w`.
The float accumulator is embedded with exact rational arithmetic. -/
def walk (pool : List PoolEntry) (upto : ℚ) (r : ℚ) : Option PoolEntry :=
  match pool with
  | [] => none
  | p :: rest =>
      if r ≤ upto + (p.codes_count : ℚ) then some p
      else walk rest (upto + (p.codes_count : ℚ)) r

/-- Modelled from the spec (§4.5, for claim C4's refinement comparison): the
inclusive cumulative weights of a pool enumeration, starting from `upto`. -/
def inclusiveCums (pool : List PoolEntry) (upto : ℚ) : List ℚ :=
  match pool with
  | [] => []
  | p :: rest =>
      (upto + (p.codes_count : ℚ)) :: inclusiveCums rest (upto + (p.codes_count : ℚ))

/-- Modelled from the spec (§4.5): "the first participant whose cumulative
weight (inclusive) is `>= r` is the winner", over a given enumeration order of
the pool. -/
def specFirstCrossing (pool : List PoolEntry) (r : ℚ) : Option PoolEntry :=
  ((pool.zip (inclusiveCums pool 0)).find? (fun pc => decide (r ≤ pc.2))).map Prod.fst

/-- Embeds `draw_weighted_winner` (`bot.py` lines 322-373).  `users` is the grouped
query result in store-returned order, `r` the value of
`random.uniform(0, total)`, `fallback` the index drawn by the defensive
`random.choice(pool)`. -/
def draw_weighted_winner (users : List User) (entries : List Entry)
    (r : ℚ) (fallback : Nat) : Option PoolEntry :=
  if users.isEmpty then none
  else
    let pool := buildPool users entries
    if pool.isEmpty then none
    else
      match walk pool 0 r with
      | some p => some p
      | none => pool.get? (fallback % pool.length)

/-! ## Preference store (`get_prefs` / `toggle_pref`, `bot.py` lines 376-409) -/

/-- The dict of the three flags returned by `get_prefs`. -/
structure PrefsView where
  notify_results : Bool
  notify_new_video : Bool
  notify_streams : Bool
deriving DecidableEq, Repr

/-- Embeds `get_prefs` (`bot.py` lines 376-394): read the row; if absent insert the
defaults and report all-`true`. -/
def get_prefs (db : DB) (uid : Int) (now : Nat) : PrefsView × DB :=
  match db.prefs.find? (fun p => p.user_id == uid) with
  | none =>
      (⟨true, true, true⟩, { db with prefs := insertPrefsIfAbsent db.prefs uid now })
  | some row => (⟨row.notify_results, row.notify_new_video, row.notify_streams⟩, db)

/-- The closed set guarded by the assert in `toggle_pref`:
`assert field in ("notify_results", "notify_new_video", "notify_streams")`. -/
def prefFields : List String := ["notify_results", "notify_new_video", "notify_streams"]

/-- Embeds `update public.user_prefs set {field} = not {field}, updated_at = now()`
for one row (only ever executed with `field ∈ prefFields`). -/
def negPrefField (p : PrefsRow) (field : String) (now : Nat) : PrefsRow :=
  if field == "notify_results" then
    { p with notify_results := !p.notify_results, updated_at := now }
  else if field == "notify_new_video" then
    { p with notify_new_video := !p.notify_new_video, updated_at := now }
  else if field == "notify_streams" then
    { p with notify_streams := !p.notify_streams, updated_at := now }
  else p

/-- Reader for the flag column named by `field` (the column the interpolated
`update … set {field} = not {field}` statement touches). -/
def prefFlag (p : PrefsRow) (field : String) : Bool :=
  if field == "notify_results" then p.notify_results
  else if field == "notify_new_video" then p.notify_new_video
  else p.notify_streams

/-- Embeds `toggle_pref` (`bot.py` lines 397-409).  The failed assert raises
(AssertionError — the caller error of the spec's taxonomy) before any database
statement runs, so the state comes back unchanged in the error case. -/
def toggle_pref (db : DB) (uid : Int) (field : String) (now : Nat) :
    Except String PrefsView × DB :=
  if field ∈ prefFields then
    let db1 : DB := { db with prefs := insertPrefsIfAbsent db.prefs uid now }
    let db2 : DB := { db1 with prefs := db1.prefs.map (fun p =>
      if p.user_id == uid then negPrefField p field now else p) }
    let viewDb := get_prefs db2 uid now
    (.ok viewDb.1, viewDb.2)
  else (.error "AssertionError", db)

/-! ## Notification fan-out (`_send_broadcast`, `bot.py` lines 672-694) -/

/-- Observable effects of one `_send_broadcast` run.
`adminNoRecipients` records the transport call
`bot.send_message(admin_chat_id, "Получателей нет. Рассылка не отправлена.")`;
`finalReport` the delivered/failed tally of the closing admin message (absent
when the early-return branch was taken). -/
structure BroadcastResult where
  adminNoRecipients : Bool
  deliveriesAttempted : List Int
  sent : Nat
  failed : Nat
  finalReport : Option (Nat × Nat)
deriving DecidableEq, Repr

/-- Embeds `_send_broadcast` (`bot.py` lines 672-694): `subs` is the resolved
subscriber list, `deliver uid` the success of `await bot.send_message(uid, text)`
(an exception counts as failure and is skipped, not propagated). -/
def send_broadcast (subs : List Int) (deliver : Int → Bool) : BroadcastResult :=
  if subs.isEmpty then
    { adminNoRecipients := true, deliveriesAttempted := [], sent := 0, failed := 0
      finalReport := none }
  else
    let counts := subs.foldl
      (fun (acc : Nat × Nat) uid => if deliver uid then (acc.1 + 1, acc.2) else (acc.1, acc.2 + 1))
      (0, 0)
    { adminNoRecipients := false, deliveriesAttempted := subs
      sent := counts.1, failed := counts.2, finalReport := some counts }

/-! ## Interleaving model of concurrent `register_entry` calls

`bot.py` runs one asyncio task per inbound update (`telegram_webhook` spawns
`asyncio.create_task(_process_update_async(data))`), and every `await` on a
database query is a suspension point (§5 of the design).  A registration task
that has already ensured its participant performs, in order: the
duplicate-entry query, the `max(entry_number)` query, and the insert — each a
separate awaited statement on an autocommit connection, with no lock or
transaction around the read-max-then-insert pair. -/

/-- Progress of one in-flight `register_entry` past the `ensure_user` call. -/
inductive TaskState where
  | ensured                              -- about to run the duplicate-entry query
  | dupChecked                           -- no existing entry; about to read the max
  | haveMax (maxSeen : Int)              -- max read; about to insert
  | finished (entry_number : Int) (is_new : Bool)
deriving DecidableEq, Repr

/-- One in-flight registration. -/
structure RegTask where
  uid : Int
  username : String
  first_name : String
  code : String
  st : TaskState
deriving DecidableEq, Repr

/-- One database round-trip of an in-flight registration (the statements of
`register_entry`, `bot.py` lines 266-284, between two suspension points). -/
def taskStep (db : DB) (t : RegTask) (now : Nat) : RegTask × DB :=
  match t.st with
  | .ensured =>
      match db.entries.find? (fun e => e.user_id == t.uid && e.code == t.code) with
      | some e => ({ t with st := .finished e.entry_number false }, db)
      | none => ({ t with st := .dupChecked }, db)
  | .dupChecked => ({ t with st := .haveMax (maxEntryNumber db.entries) }, db)
  | .haveMax m =>
      let n := m + 1
      ({ t with st := .finished n true },
       { db with entries := db.entries ++
          [{ user_id := t.uid, username := t.username, first_name := t.first_name
             code := t.code, entry_number := n, created_at := now }] })
  | .finished _ _ => (t, db)

/-- Run two in-flight registrations under a schedule: `true` steps the first
task, `false` the second.  Every such schedule is a legal asyncio interleaving
of the two tasks' awaited statements. -/
def runSchedule (db : DB) (t1 t2 : RegTask) (sched : List Bool) (now : Nat) :
    RegTask × RegTask × DB :=
  match sched with
  | [] => (t1, t2, db)
  | b :: rest =>
      if b then
        let (t1', db') := taskStep db t1 now
        runSchedule db' t1' t2 rest now
      else
        let (t2', db') := taskStep db t2 now
        runSchedule db' t1 t2' rest now

/-! ## Helper lemmas -/

/-- Computing `find?` over an update-map that rewrites only key-matching elements and
preserves the key. -/
theorem find?_map_update {α : Type} (l : List α) (key : α → Int) (uid : Int) (f : α → α)
    (hf : ∀ v, key (f v) = key v) :
    (l.map (fun v => if key v == uid then f v else v)).find? (fun v => key v == uid)
      = (l.find? (fun v => key v == uid)).map f := by
  induction l with
  | nil => rfl
  | cons a l ih =>
    by_cases hc : key a = uid
    · simp only [List.map_cons, List.find?_cons, hc, beq_self_eq_true, if_true, hf,
        Option.map_some']
    · have hb : (key a == uid) = false := by simp [hc]
      simp only [List.map_cons, List.find?_cons, hb, if_false, Bool.false_eq_true, ih]

/-- Rows whose key differs are untouched by an update-map. -/
theorem filter_map_update {α : Type} (l : List α) (key : α → Int) (uid : Int) (f : α → α)
    (hf : ∀ v, key (f v) = key v) :
    (l.map (fun v => if key v == uid then f v else v)).filter (fun v => !(key v == uid))
      = l.filter (fun v => !(key v == uid)) := by
  induction l with
  | nil => rfl
  | cons a l ih =>
    by_cases hc : key a = uid
    · simp only [List.map_cons, List.filter_cons, hc, beq_self_eq_true, if_true, hf,
        Bool.not_true, Bool.false_eq_true, if_false, ih]
    · have hb : (key a == uid) = false := by simp [hc]
      simp only [List.map_cons, List.filter_cons, hb, if_false, Bool.not_false, if_true,
        Bool.false_eq_true, ih]

theorem any_of_find?_eq_some {α : Type} {l : List α} {p : α → Bool} {a : α}
    (h : l.find? p = some a) : l.any p = true := by
  simp only [List.any_eq_true]
  exact ⟨a, List.mem_of_find?_eq_some h, List.find?_some h⟩

/-- An update of `username`/`first_name` alone changes no
`(user_id, participant_code)` pair. -/
theorem map_pair_update (l : List User) (uid : Int) (un fn : String) :
    ((l.map (fun v => if v.user_id == uid then { v with username := un, first_name := fn } else v)).map
        (fun v => (v.user_id, v.participant_code)))
      = l.map (fun v => (v.user_id, v.participant_code)) := by
  induction l with
  | nil => rfl
  | cons a l ih =>
    by_cases hc : a.user_id = uid
    · simp only [List.map_cons, hc, beq_self_eq_true, if_true, ih]
    · have hb : (a.user_id == uid) = false := by simp [hc]
      simp only [List.map_cons, hb, Bool.false_eq_true, if_false, ih]

/-- The function `ensure_user` never touches `public.entries`. -/
theorem ensure_user_entries {db : DB} {uid : Int} {un fn : Option String}
    {cands : List String} {now : Nat} {pc : String} {db1 : DB}
    (h : ensure_user db uid un fn cands now = some (pc, db1)) :
    db1.entries = db.entries := by
  unfold ensure_user at h
  split at h
  · simp only [Option.some.injEq, Prod.mk.injEq] at h
    rw [← h.2]
  · split at h
    · cases h
    · simp only [Option.some.injEq, Prod.mk.injEq] at h
      rw [← h.2]

/-- The function `ensure_user` never touches any stored `(user_id, participant_code)` pair
other than by appending the freshly created participant. -/
theorem ensure_user_findUser {db : DB} {uid : Int} {un fn : Option String}
    {cands : List String} {now : Nat} {pc : String} {db1 : DB}
    (h : ensure_user db uid un fn cands now = some (pc, db1)) :
    ∃ u, findUser db1 uid = some u ∧ u.participant_code = pc := by
  unfold ensure_user at h
  split at h
  · next u hu =>
    simp only [Option.some.injEq, Prod.mk.injEq] at h
    refine ⟨{ u with username := orEmpty un, first_name := orEmpty fn }, ?_, by simp [h.1]⟩
    rw [← h.2]
    show (db.users.map _).find? _ = _
    rw [find?_map_update db.users (fun v => v.user_id) uid
      (fun v => { v with username := orEmpty un, first_name := orEmpty fn }) (fun v => rfl)]
    rw [show db.users.find? (fun v => v.user_id == uid) = some u from hu]
    rfl
  · next hu =>
    split at h
    · cases h
    · next pc0 hpc =>
      simp only [Option.some.injEq, Prod.mk.injEq] at h
      rw [← h.2, ← h.1]
      refine ⟨{ user_id := uid, username := orEmpty un, first_name := orEmpty fn
                participant_code := pc0 }, ?_, rfl⟩
      show (db.users ++ [_]).find? _ = _
      rw [List.find?_append, show db.users.find? (fun v => v.user_id == uid) = none from hu]
      simp

/-! ## Claim C1: entry-number uniqueness under concurrency -/

/-- Initial state of the concurrency scenario: both participants already exist
(`ensure_user` done), the ledger is empty. -/
def raceDB : DB :=
  { users := [{ user_id := 1, username := "alice", first_name := "Alice", participant_code := "abc234" },
              { user_id := 2, username := "bob", first_name := "Bob", participant_code := "xyz789" }]
    entries := []
    prefs := [] }

/-- In-flight registration of participant 1 redeeming `"headshotking"`. -/
def raceTask1 : RegTask :=
  { uid := 1, username := "alice", first_name := "Alice", code := "headshotking", st := .ensured }

/-- In-flight registration of participant 2 redeeming `"moovictory"`. -/
def raceTask2 : RegTask :=
  { uid := 2, username := "bob", first_name := "Bob", code := "moovictory", st := .ensured }

/-- The interleaving in which both tasks run their `max(entry_number)` query
before either inserts. -/
def raceSchedule : List Bool := [true, true, false, false, true, false]

/-- Claim C1: the claim asserts that `entry_number` values of concurrently issued
distinct (participant, code) registrations are pairwise distinct.  The code
computes `select coalesce(max(entry_number), 0)` and inserts `max + 1` in two
separate awaited statements on an autocommit connection, with no lock,
transaction or database sequence; under the interleaving `raceSchedule` both
registrations read `max = 0` and both insert `entry_number = 1`.  This
evaluates the embedded code at that failing interleaving: the final ledger
carries entry numbers `[1, 1]`, which are not pairwise distinct. -/
theorem register_entry_race_duplicate_numbers :
    ((runSchedule raceDB raceTask1 raceTask2 raceSchedule 7).2.2.entries.map
        (fun e => e.entry_number)) = [1, 1] ∧
    ¬ ((runSchedule raceDB raceTask1 raceTask2 raceSchedule 7).2.2.entries.map
        (fun e => e.entry_number)).Nodup ∧
    (runSchedule raceDB raceTask1 raceTask2 raceSchedule 7).1.st = .finished 1 true ∧
    (runSchedule raceDB raceTask1 raceTask2 raceSchedule 7).2.1.st = .finished 1 true := by
  decide

/-! ## Claim C5: the admission gate fails closed -/

/-- Claim C5: if both membership-collaborator calls fail, `is_subscribed` returns
`false` (no exception escapes: the embedding is a total function into `Bool`),
and `handle_code` performs no `register_entry` for the submission (third
component of the result). -/
theorem admission_fails_closed (db : DB) (text : Option String) (uid : Int)
    (un fn : Option String) (req : String) (c1 c2 : MemberCall)
    (cands : List String) (now : Nat) (e1 e2 : String)
    (h1 : c1 = .error e1) (h2 : c2 = .error e2) :
    is_subscribed req c1 c2 = false ∧
    (handle_code db text uid un fn req c1 c2 cands now).2.2 = false := by
  subst h1; subst h2
  have hsub : is_subscribed req (.error e1) (.error e2) = false := by
    unfold is_subscribed
    simp
  refine ⟨hsub, ?_⟩
  unfold handle_code
  cases text with
  | none => rfl
  | some t =>
    dsimp only
    split
    · rfl
    · split
      · rfl
      · rw [if_pos (by rw [hsub]; exact Bool.false_ne_true)]
        cases hE : ensure_user db uid un fn cands now with
        | none => rfl
        | some v => obtain ⟨pc, db'⟩ := v; rfl

/-- Witness for C5: a concrete submission with a timed-out collaborator. -/
theorem admission_fails_closed_witness :
    is_subscribed "projectglml" (.error "TimedOut") (.error "TimedOut") = false ∧
    (handle_code ⟨[], [], []⟩ (some "HEADSHOTKING") 5 (some "al") none "projectglml"
        (.error "TimedOut") (.error "TimedOut") ["abc234"] 3).2.2 = false :=
  admission_fails_closed ⟨[], [], []⟩ (some "HEADSHOTKING") 5 (some "al") none "projectglml"
    (.error "TimedOut") (.error "TimedOut") ["abc234"] 3 "TimedOut" "TimedOut" rfl rfl

/-! ## Claim C6: broadcast with zero subscribers -/

/-- Claim C6, counterexample: with zero subscribers `_send_broadcast` does contact
the transport — it sends the admin the "Получателей нет" notification — and it
reports no `{delivered: 0, failed: 0}` tally (that closing report is only sent
on the non-empty path). -/
theorem broadcast_empty_counterexample :
    (send_broadcast [] (fun _ => true)).adminNoRecipients = true ∧
    (send_broadcast [] (fun _ => true)).finalReport ≠ some (0, 0) := by
  decide

/-- Claim C6, amended: with zero subscribers `_send_broadcast` attempts no
delivery to any subscriber and its delivered/failed counters stay `0`/`0`; its
single transport call is the admin notification that nothing was sent, and no
numeric tally is reported. -/
theorem broadcast_empty_no_deliveries (deliver : Int → Bool) :
    send_broadcast [] deliver =
      { adminNoRecipients := true, deliveriesAttempted := [], sent := 0, failed := 0
        finalReport := none } := rfl

/-! ## Claim C7: preference toggles accept only the closed flag set -/

/-- Claim C7: the function `toggle_pref` accepts exactly the three enumerated flag names; any
other string is rejected by the guard (the AssertionError of the source — the
spec's `ValidationError`) before any statement runs, leaving the state
unchanged; the flag name is never interpolated into a query. -/
theorem toggle_pref_closed_enum (db : DB) (uid : Int) (field : String) (now : Nat) :
    (field ∉ prefFields → toggle_pref db uid field now = (.error "AssertionError", db)) ∧
    (field ∈ prefFields → ∃ v db1, toggle_pref db uid field now = (.ok v, db1)) := by
  constructor
  · intro h
    unfold toggle_pref
    rw [if_neg h]
  · intro h
    unfold toggle_pref
    rw [if_pos h]
    exact ⟨_, _, rfl⟩

/-- Witness for C7: an arbitrary (injection-shaped) string is rejected with the
state unchanged. -/
theorem toggle_pref_closed_enum_witness :
    toggle_pref ⟨[], [], []⟩ 7 "user_id; drop table user_prefs" 0
      = (.error "AssertionError", ⟨[], [], []⟩) :=
  (toggle_pref_closed_enum ⟨[], [], []⟩ 7 "user_id; drop table user_prefs" 0).1 (by decide)

/-! ## Claim C9: the walk always selects; the fallback is unreachable -/

/-- Under exact arithmetic the cumulative walk over a non-empty pool selects
an element whenever `r` does not exceed the remaining total weight. -/
theorem walk_cons_isSome (a : PoolEntry) (l : List PoolEntry) (upto r : ℚ)
    (hr : r ≤ upto + (((a :: l).map (fun p => (p.codes_count : ℚ))).sum)) :
    (walk (a :: l) upto r).isSome = true := by
  induction l generalizing a upto with
  | nil =>
    unfold walk
    split
    · rfl
    · next hgt =>
      exfalso
      simp only [List.map_cons, List.map_nil, List.sum_cons, List.sum_nil] at hr
      exact hgt (by linarith)
  | cons b m ih =>
    unfold walk
    split
    · rfl
    · apply ih b (upto + (a.codes_count : ℚ))
      simp only [List.map_cons, List.sum_cons] at hr ⊢
      linarith

/-- Claim C9: for a non-empty pool of positive integer weights and any exact draw
value `r` in `[0, total]`, the cumulative walk returns a pool member, so the
`random.choice` fallback branch of `draw_weighted_winner` is unreachable: the
draw result does not depend on the fallback index. -/
theorem draw_fallback_unreachable (users : List User) (entries : List Entry) (r : ℚ)
    (hne : buildPool users entries ≠ [])
    (hpos : ∀ p ∈ buildPool users entries, 1 ≤ p.codes_count)
    (h0 : 0 ≤ r)
    (hr : r ≤ ((buildPool users entries).map (fun p => (p.codes_count : ℚ))).sum) :
    (walk (buildPool users entries) 0 r).isSome = true ∧
    ∀ i j : Nat, draw_weighted_winner users entries r i = draw_weighted_winner users entries r j := by
  have hw : (walk (buildPool users entries) 0 r).isSome = true := by
    cases hbp : buildPool users entries with
    | nil => exact absurd hbp hne
    | cons a l =>
      rw [hbp] at hr
      apply walk_cons_isSome a l 0 r
      linarith
  refine ⟨hw, fun i j => ?_⟩
  obtain ⟨p, hp⟩ := Option.isSome_iff_exists.mp hw
  simp only [draw_weighted_winner, hp]

/-- Pool of the C9 witness: one participant who redeemed one code. -/
def demoUsers : List User :=
  [{ user_id := 1, username := "al", first_name := "Al", participant_code := "p1q2r3" }]

/-- Ledger of the C9 witness. -/
def demoEntries : List Entry :=
  [{ user_id := 1, username := "al", first_name := "Al", code := "headshotking"
     entry_number := 1, created_at := 0 }]

/-- Witness for C9 at a concrete pool and draw value. -/
theorem draw_fallback_unreachable_witness :
    (walk (buildPool demoUsers demoEntries) 0 (1/2)).isSome = true ∧
    ∀ i j : Nat, draw_weighted_winner demoUsers demoEntries (1/2) i
      = draw_weighted_winner demoUsers demoEntries (1/2) j :=
  draw_fallback_unreachable demoUsers demoEntries (1/2) (by decide) (by decide)
    (by norm_num)
    (by
      have hbp : buildPool demoUsers demoEntries
          = [{ user_id := 1, username := "al", first_name := "Al", participant_code := "p1q2r3"
               codes_count := 1, codes := ["headshotking"] }] := by decide
      rw [hbp]
      norm_num)

/-! ## Claim C3: the draw returns `None` exactly on an all-zero-weight pool -/

/-- Whatever the walk returns is a pool member. -/
theorem walk_mem {pool : List PoolEntry} {upto r : ℚ} {p : PoolEntry}
    (h : walk pool upto r = some p) : p ∈ pool := by
  induction pool generalizing upto with
  | nil => cases h
  | cons a l ih =>
    unfold walk at h
    split at h
    · injection h with h'
      rw [← h']
      exact List.mem_cons_self a l
    · exact List.mem_cons_of_mem a (ih h)

/-- The pool is empty exactly when every queried user has zero distinct codes. -/
theorem buildPool_eq_nil_iff (users : List User) (entries : List Entry) :
    buildPool users entries = [] ↔ ∀ u ∈ users, codesCountOf entries u.user_id = 0 := by
  unfold buildPool
  rw [List.filterMap_eq_nil_iff]
  constructor
  · intro h u hu
    have h' := h u hu
    dsimp only at h'
    split at h'
    · omega
    · cases h'
  · intro h u hu
    simp [h u hu]

/-- Every pool member comes from a queried user and carries that user's
positive distinct-code count as its weight. -/
theorem mem_buildPool {users : List User} {entries : List Entry} {p : PoolEntry}
    (h : p ∈ buildPool users entries) :
    ∃ u ∈ users, p.user_id = u.user_id ∧ p.codes_count = codesCountOf entries u.user_id ∧
      1 ≤ p.codes_count := by
  unfold buildPool at h
  rw [List.mem_filterMap] at h
  obtain ⟨u, hu, hf⟩ := h
  refine ⟨u, hu, ?_⟩
  dsimp only at hf
  split at hf
  · cases hf
  · next hle =>
    injection hf with h'
    subst h'
    refine ⟨rfl, rfl, ?_⟩
    show 1 ≤ codesCountOf entries u.user_id
    omega

/-- Claim C3: the function `draw_weighted_winner` returns `none` iff no queried participant
has a positive weight (no users at all, or all with zero distinct codes); any
returned winner is one of the queried participants and its weight — its count
of distinct redeemed codes — is at least 1, so a zero-weight participant is
never returned. -/
theorem draw_winner_none_iff (users : List User) (entries : List Entry) (r : ℚ) (fb : Nat) :
    (draw_weighted_winner users entries r fb = none ↔
      ∀ u ∈ users, codesCountOf entries u.user_id = 0) ∧
    ∀ p, draw_weighted_winner users entries r fb = some p →
      ∃ u ∈ users, p.user_id = u.user_id ∧ p.codes_count = codesCountOf entries u.user_id ∧
        1 ≤ p.codes_count := by
  by_cases hu : users.isEmpty
  · rw [List.isEmpty_iff] at hu
    subst hu
    refine ⟨by simp [draw_weighted_winner], ?_⟩
    intro p hp
    simp [draw_weighted_winner] at hp
  · have hu' : users.isEmpty = false := by simpa using hu
    cases hbp : buildPool users entries with
    | nil =>
      have hdraw : draw_weighted_winner users entries r fb = none := by
        simp [draw_weighted_winner, hu', hbp]
      have hall : ∀ u ∈ users, codesCountOf entries u.user_id = 0 :=
        (buildPool_eq_nil_iff users entries).mp hbp
      refine ⟨⟨fun _ => hall, fun _ => hdraw⟩, ?_⟩
      intro p hp
      rw [hdraw] at hp
      cases hp
    | cons a l =>
      have hmem : ∃ p, draw_weighted_winner users entries r fb = some p ∧
          p ∈ buildPool users entries := by
        cases hwalk : walk (buildPool users entries) 0 r with
        | some q =>
          refine ⟨q, ?_, walk_mem hwalk⟩
          rw [hbp] at hwalk
          simp [draw_weighted_winner, hu', hbp, hwalk]
        | none =>
          rw [hbp] at hwalk
          have hdraw : draw_weighted_winner users entries r fb
              = (a :: l).get? (fb % (a :: l).length) := by
            simp [draw_weighted_winner, hu', hbp, hwalk]
          cases hg : (a :: l).get? (fb % (a :: l).length) with
          | none =>
            exfalso
            rw [List.get?_eq_none] at hg
            have hlt := Nat.mod_lt fb (Nat.succ_pos l.length)
            rw [List.length_cons] at hg
            simp only [Nat.succ_eq_add_one] at hlt
            omega
          | some q =>
            exact ⟨q, by rw [hdraw, hg], by rw [hbp]; exact List.get?_mem hg⟩
      obtain ⟨p0, hp0, hp0mem⟩ := hmem
      constructor
      · rw [hp0]
        constructor
        · intro h
          cases h
        · intro hall
          have hnil : buildPool users entries = [] :=
            (buildPool_eq_nil_iff users entries).mpr hall
          rw [hbp] at hnil
          cases hnil
      · intro p hp
        rw [hp0] at hp
        cases hp
        exact mem_buildPool hp0mem

/-- Zero-weight participant of the C3 witness. -/
def zeroUser : User :=
  { user_id := 9, username := "z", first_name := "Z", participant_code := "zzzz99" }

/-- Witness for C3: a pool holding one zero-weight participant draws no winner. -/
theorem draw_winner_none_iff_witness :
    draw_weighted_winner [zeroUser] [] 1 0 = none :=
  (draw_winner_none_iff [zeroUser] [] 1 0).1.mpr (by decide)

/-! ## Claim C4: determinism of the draw over a fixed snapshot -/

/-- User A of the C4 counterexample (weight 1). -/
def cUserA : User :=
  { user_id := 1, username := "a", first_name := "A", participant_code := "aaaaaa" }

/-- User B of the C4 counterexample (weight 2). -/
def cUserB : User :=
  { user_id := 2, username := "b", first_name := "B", participant_code := "bbbbbb" }

/-- Ledger snapshot of the C4 counterexample. -/
def cEntries : List Entry :=
  [{ user_id := 1, username := "a", first_name := "A", code := "moovictory"
     entry_number := 1, created_at := 0 },
   { user_id := 2, username := "b", first_name := "B", code := "headshotking"
     entry_number := 2, created_at := 0 },
   { user_id := 2, username := "b", first_name := "B", code := "clutchgod"
     entry_number := 3, created_at := 0 }]

/-- Pool row of user A. -/
def cPoolA : PoolEntry :=
  { user_id := 1, username := "a", first_name := "A", participant_code := "aaaaaa"
    codes_count := 1, codes := ["moovictory"] }

/-- Pool row of user B. -/
def cPoolB : PoolEntry :=
  { user_id := 2, username := "b", first_name := "B", participant_code := "bbbbbb"
    codes_count := 2, codes := ["headshotking", "clutchgod"] }

/-- Claim C4, counterexample: the grouped pool query of `draw_weighted_winner` has
no `order by`, so a fixed ledger snapshot does not fix the enumeration order of
the pool rows; the two enumeration orders of the same two-user snapshot (the
user rows are a permutation of each other) with the same random value `r = 1`
produce different winners — participant 1 under `[A, B]`, participant 2 under
`[B, A]`.  The claim that two runs of the draw over the same snapshot with the
same `r` select the same winner is therefore false on the code. -/
theorem draw_order_counterexample :
    [cUserA, cUserB].Perm [cUserB, cUserA] ∧
    draw_weighted_winner [cUserA, cUserB] cEntries 1 0
      ≠ draw_weighted_winner [cUserB, cUserA] cEntries 1 0 := by
  have hbp1 : buildPool [cUserA, cUserB] cEntries = [cPoolA, cPoolB] := by decide
  have hbp2 : buildPool [cUserB, cUserA] cEntries = [cPoolB, cPoolA] := by decide
  have hw1 : walk [cPoolA, cPoolB] 0 1 = some cPoolA := by
    unfold walk
    rw [if_pos (by norm_num [cPoolA])]
  have hw2 : walk [cPoolB, cPoolA] 0 1 = some cPoolB := by
    unfold walk
    rw [if_pos (by norm_num [cPoolB])]
  have h1 : draw_weighted_winner [cUserA, cUserB] cEntries 1 0 = some cPoolA := by
    simp [draw_weighted_winner, hbp1, hw1]
  have h2 : draw_weighted_winner [cUserB, cUserA] cEntries 1 0 = some cPoolB := by
    simp [draw_weighted_winner, hbp2, hw2]
  refine ⟨by decide, ?_⟩
  rw [h1, h2]
  intro hcontra
  injection hcontra with h'
  exact absurd (congrArg PoolEntry.user_id h') (by decide)

/-- The walk, started at accumulator `upto`, returns exactly the first element
whose inclusive cumulative weight (accumulated from `upto`) crosses `r`. -/
theorem walk_eq_firstCrossing (pool : List PoolEntry) (upto r : ℚ) :
    walk pool upto r
      = ((pool.zip (inclusiveCums pool upto)).find? (fun pc => decide (r ≤ pc.2))).map
          Prod.fst := by
  induction pool generalizing upto with
  | nil => rfl
  | cons a l ih =>
    unfold walk inclusiveCums
    by_cases hc : r ≤ upto + (a.codes_count : ℚ)
    · rw [if_pos hc, List.zip_cons_cons, List.find?_cons_of_pos _ (by simpa using hc)]
      rfl
    · rw [if_neg hc, List.zip_cons_cons, List.find?_cons_of_neg _ (by simpa using hc)]
      exact ih (upto + (a.codes_count : ℚ))

/-- Claim C4, amended: relative to the enumeration order in which the store
returns the pool rows, the draw is deterministic and implements the spec's
selection rule — the cumulative walk returns exactly the first pool element
(in that order) whose inclusive cumulative weight is `≥ r`.  Reproducibility
across two runs holds only when the store enumerates the snapshot in the same
order; the query itself (lacking `order by`) does not pin that order. -/
theorem walk_first_crossing (pool : List PoolEntry) (r : ℚ) :
    walk pool 0 r = specFirstCrossing pool r :=
  walk_eq_firstCrossing pool 0 r

/-! ## Claim C8: stable participant identity -/

/-- Evaluation of `ensure_user` on the existing-participant path. -/
theorem ensure_user_existing {db : DB} {uid : Int} (un fn : Option String)
    (cands : List String) (now : Nat) {u : User} (hu : findUser db uid = some u) :
    ensure_user db uid un fn cands now
      = some (u.participant_code,
          { db with
            users := db.users.map (fun v =>
              if v.user_id == uid then
                { v with username := orEmpty un, first_name := orEmpty fn } else v)
            prefs := insertPrefsIfAbsent db.prefs uid now }) := by
  unfold ensure_user
  rw [hu]

/-- Claim C8: once `ensure_user` has returned a `participant_code` for an
external identity, every later call returns the same code: the existing-user
path overwrites only `username`/`first_name` and neither changes nor
regenerates any stored `(user_id, participant_code)` pair. -/
theorem ensure_user_stable (db : DB) (uid : Int) (un fn un' fn' : Option String)
    (cands cands' : List String) (now now' : Nat) (pc : String) (db1 : DB)
    (h : ensure_user db uid un fn cands now = some (pc, db1)) :
    ∃ db2, ensure_user db1 uid un' fn' cands' now' = some (pc, db2) ∧
      db2.users.map (fun v => (v.user_id, v.participant_code)) =
        db1.users.map (fun v => (v.user_id, v.participant_code)) := by
  obtain ⟨u, hu, hcode⟩ := ensure_user_findUser h
  refine ⟨{ db1 with
      users := db1.users.map (fun v =>
        if v.user_id == uid then
          { v with username := orEmpty un', first_name := orEmpty fn' } else v)
      prefs := insertPrefsIfAbsent db1.prefs uid now' }, ?_, ?_⟩
  · rw [ensure_user_existing un' fn' cands' now' hu, hcode]
  · exact map_pair_update db1.users uid (orEmpty un') (orEmpty fn')

/-- Database after the first `ensure_user` call of the C8 witness. -/
def stableDB1 : DB :=
  { users := [{ user_id := 1, username := "al", first_name := "", participant_code := "abc234" }]
    entries := []
    prefs := [defaultPrefsRow 1 0] }

/-- Witness for C8: the second call returns the code minted by the first. -/
theorem ensure_user_stable_witness :
    ∃ db2, ensure_user stableDB1 1 (some "al2") none ["zzz999"] 4 = some ("abc234", db2) ∧
      db2.users.map (fun v => (v.user_id, v.participant_code)) =
        stableDB1.users.map (fun v => (v.user_id, v.participant_code)) :=
  ensure_user_stable ⟨[], [], []⟩ 1 (some "al") none (some "al2") none ["abc234"] ["zzz999"]
    0 4 "abc234" stableDB1 (by decide)

/-! ## Claim C2: idempotent code registration -/

/-- Evaluation of `register_entry` when the participant and the entry already
exist: the stored entry's number comes back with `is_new = false`, and the
ledger is untouched. -/
theorem register_entry_found {db : DB} {uid : Int} (un fn : Option String) {c : String}
    (cands : List String) (now : Nat) {u : User} {e : Entry}
    (hu : findUser db uid = some u)
    (he : db.entries.find? (fun x => x.user_id == uid && x.code == c) = some e) :
    ∃ db2, register_entry db uid un fn c cands now
        = some (e.entry_number, false, u.participant_code, db2) ∧
      db2.entries = db.entries := by
  have heq : register_entry db uid un fn c cands now
      = some (e.entry_number, false, u.participant_code,
          { db with
            users := db.users.map (fun v =>
              if v.user_id == uid then
                { v with username := orEmpty un, first_name := orEmpty fn } else v)
            prefs := insertPrefsIfAbsent db.prefs uid now }) := by
    simp only [register_entry, ensure_user_existing un fn cands now hu, he]
  exact ⟨_, heq, rfl⟩

/-- Claim C2: the function `register_entry` is idempotent per participant and normalized code:
after a first submission was accepted as new with number `n`, resubmitting the
same code word in any letter case (same `strip().lower()` normal form) returns
the same `n` with `is_new = false`, adds nothing to the ledger, and the ledger
holds exactly one entry for the pair. -/
theorem register_entry_idempotent (db : DB) (uid : Int) (un fn un' fn' : Option String)
    (t1 t2 : String) (cands cands' : List String) (now now' : Nat)
    (n : Int) (pc : String) (db1 : DB)
    (hnorm : normalizeCode t2 = normalizeCode t1)
    (h : register_entry db uid un fn (normalizeCode t1) cands now = some (n, true, pc, db1)) :
    ∃ db2, register_entry db1 uid un' fn' (normalizeCode t2) cands' now' = some (n, false, pc, db2) ∧
      db2.entries = db1.entries ∧
      (db1.entries.filter (fun e => e.user_id == uid && e.code == normalizeCode t1)).length
        = 1 := by
  rw [hnorm]
  unfold register_entry at h
  split at h
  · cases h
  · next pc0 dbE hE =>
    split at h
    · simp at h
    · next hF =>
      simp only [Option.some.injEq, Prod.mk.injEq, true_and] at h
      obtain ⟨hn, hpc, hdb1⟩ := h
      subst hdb1
      subst hn
      subst hpc
      obtain ⟨u, hu, hcode⟩ := ensure_user_findUser hE
      -- the appended entry
      have hu1 : findUser { dbE with entries := dbE.entries ++
          [{ user_id := uid, username := orEmpty un, first_name := orEmpty fn
             code := normalizeCode t1, entry_number := maxEntryNumber dbE.entries + 1
             created_at := now }] } uid = some u := hu
      have hF1 : ({ dbE with entries := dbE.entries ++
          [{ user_id := uid, username := orEmpty un, first_name := orEmpty fn
             code := normalizeCode t1, entry_number := maxEntryNumber dbE.entries + 1
             created_at := now }] } : DB).entries.find?
            (fun x => x.user_id == uid && x.code == normalizeCode t1)
          = some { user_id := uid, username := orEmpty un, first_name := orEmpty fn
                   code := normalizeCode t1, entry_number := maxEntryNumber dbE.entries + 1
                   created_at := now } := by
        show (dbE.entries ++ [_]).find? _ = _
        rw [List.find?_append, hF]
        simp
      obtain ⟨db2, h2eq, h2ent⟩ :=
        register_entry_found un' fn' cands' now' hu1 hF1
      refine ⟨db2, ?_, h2ent, ?_⟩
      · rw [h2eq, hcode]
      · show ((dbE.entries ++ [_]).filter _).length = 1
        rw [List.filter_append]
        have hnil : dbE.entries.filter
            (fun e => e.user_id == uid && e.code == normalizeCode t1) = [] := by
          rw [List.filter_eq_nil_iff]
          intro a ha
          have := List.find?_eq_none.mp hF a ha
          simpa using this
        rw [hnil]
        simp

/-- Witness for C2: participant 1 submits `"HEADSHOTKING"` then
`"headshotking"`; the second submission returns entry 1 with `is_new = false`
and the ledger keeps one entry for the pair. -/
theorem register_entry_idempotent_witness :
    ∃ db2, register_entry
        { users := [{ user_id := 1, username := "al", first_name := "", participant_code := "abc234" }]
          entries := [{ user_id := 1, username := "al", first_name := ""
                        code := "headshotking", entry_number := 1, created_at := 0 }]
          prefs := [defaultPrefsRow 1 0] } 1 (some "al") none
          (normalizeCode "headshotking") ["zzz999"] 9 = some (1, false, "abc234", db2) ∧
      db2.entries =
        ({ users := [{ user_id := 1, username := "al", first_name := "", participant_code := "abc234" }]
           entries := [{ user_id := 1, username := "al", first_name := ""
                         code := "headshotking", entry_number := 1, created_at := 0 }]
           prefs := [defaultPrefsRow 1 0] } : DB).entries ∧
      (({ users := [{ user_id := 1, username := "al", first_name := "", participant_code := "abc234" }]
          entries := [{ user_id := 1, username := "al", first_name := ""
                        code := "headshotking", entry_number := 1, created_at := 0 }]
          prefs := [defaultPrefsRow 1 0] } : DB).entries.filter
        (fun e => e.user_id == 1 && e.code == normalizeCode "HEADSHOTKING")).length = 1 :=
  register_entry_idempotent ⟨[], [], []⟩ 1 (some "al") none (some "al") none
    "HEADSHOTKING" "headshotking" ["abc234"] ["zzz999"] 0 9 1 "abc234" _
    (by decide) (by decide)

/-! ## Claim C10: toggle touches exactly the named flag of the named row -/

/-- The flag update never changes the row's key. -/
theorem negPrefField_user_id (p : PrefsRow) (field : String) (now : Nat) :
    (negPrefField p field now).user_id = p.user_id := by
  unfold negPrefField
  split_ifs <;> rfl

/-- After the update-map of `toggle_pref`, the looked-up row is the negated
original row. -/
theorem prefs_find?_after_toggle {prefs : List PrefsRow} {uid : Int} {p : PrefsRow}
    (field : String) (now : Nat)
    (hp : prefs.find? (fun q => q.user_id == uid) = some p) :
    (prefs.map (fun q => if q.user_id == uid then negPrefField q field now else q)).find?
      (fun q => q.user_id == uid) = some (negPrefField p field now) := by
  rw [find?_map_update prefs (fun q => q.user_id) uid (fun q => negPrefField q field now)
    (fun q => negPrefField_user_id q field now), hp]
  rfl

/-- Evaluation of `toggle_pref` on a valid field when the row exists. -/
theorem toggle_pref_step {db : DB} {uid : Int} (field : String) (now : Nat) {p : PrefsRow}
    (hf : field ∈ prefFields)
    (hp : db.prefs.find? (fun q => q.user_id == uid) = some p) :
    toggle_pref db uid field now
      = (.ok ⟨(negPrefField p field now).notify_results,
              (negPrefField p field now).notify_new_video,
              (negPrefField p field now).notify_streams⟩,
         { db with prefs := db.prefs.map (fun q =>
             if q.user_id == uid then negPrefField q field now else q) }) := by
  have hins : insertPrefsIfAbsent db.prefs uid now = db.prefs := by
    unfold insertPrefsIfAbsent
    rw [if_pos (any_of_find?_eq_some hp)]
  simp only [toggle_pref, get_prefs, if_pos hf, hins, prefs_find?_after_toggle field now hp]

/-- Negating the named flag flips exactly that flag. -/
theorem prefFlag_negPrefField_same (p : PrefsRow) (field : String) (now : Nat)
    (hf : field ∈ prefFields) :
    prefFlag (negPrefField p field now) field = ! prefFlag p field := by
  simp only [prefFields, List.mem_cons, List.not_mem_nil, or_false] at hf
  rcases hf with rfl | rfl | rfl <;> rfl

/-- Negating the named flag leaves the two other flags unchanged. -/
theorem prefFlag_negPrefField_other (p : PrefsRow) (field g : String) (now : Nat)
    (hf : field ∈ prefFields) (hg : g ∈ prefFields) (hne : g ≠ field) :
    prefFlag (negPrefField p field now) g = prefFlag p g := by
  simp only [prefFields, List.mem_cons, List.not_mem_nil, or_false] at hf hg
  rcases hf with rfl | rfl | rfl <;> rcases hg with rfl | rfl | rfl <;>
    first
      | exact absurd rfl hne
      | rfl

/-- Toggling the same flag twice restores all three flag values. -/
theorem prefFlag_negPrefField_involutive (p : PrefsRow) (field g : String) (now now' : Nat)
    (hf : field ∈ prefFields) (hg : g ∈ prefFields) :
    prefFlag (negPrefField (negPrefField p field now) field now') g = prefFlag p g := by
  simp only [prefFields, List.mem_cons, List.not_mem_nil, or_false] at hf hg
  rcases hf with rfl | rfl | rfl <;> rcases hg with rfl | rfl | rfl <;>
    first
      | exact Bool.not_not _
      | rfl

/-- The named flag's stamp: the update writes `updated_at = now`. -/
theorem negPrefField_updated_at (p : PrefsRow) (field : String) (now : Nat)
    (hf : field ∈ prefFields) :
    (negPrefField p field now).updated_at = now := by
  simp only [prefFields, List.mem_cons, List.not_mem_nil, or_false] at hf
  rcases hf with rfl | rfl | rfl <;> rfl

/-- Claim C10: for a valid flag name and an existing preference row,
`toggle_pref` negates exactly the named flag of exactly that participant's row
and stamps its `updated_at`; the row's other two flags, its key, and every
other participant's row are unchanged, and toggling the same flag again
restores all three original flag values. -/
theorem toggle_pref_frame (db : DB) (uid : Int) (field : String) (now now' : Nat)
    (p : PrefsRow) (hf : field ∈ prefFields)
    (hp : db.prefs.find? (fun x => x.user_id == uid) = some p) :
    ∃ v db1 q, toggle_pref db uid field now = (.ok v, db1) ∧
      db1.prefs.find? (fun x => x.user_id == uid) = some q ∧
      prefFlag q field = ! prefFlag p field ∧
      (∀ g ∈ prefFields, g ≠ field → prefFlag q g = prefFlag p g) ∧
      q.updated_at = now ∧ q.user_id = p.user_id ∧
      db1.prefs.filter (fun x => !(x.user_id == uid)) =
        db.prefs.filter (fun x => !(x.user_id == uid)) ∧
      ∃ v2 db2 q2, toggle_pref db1 uid field now' = (.ok v2, db2) ∧
        db2.prefs.find? (fun x => x.user_id == uid) = some q2 ∧
        ∀ g ∈ prefFields, prefFlag q2 g = prefFlag p g := by
  have hfind1 : (db.prefs.map
        (fun q => if q.user_id == uid then negPrefField q field now else q)).find?
      (fun x => x.user_id == uid) = some (negPrefField p field now) :=
    prefs_find?_after_toggle field now hp
  refine ⟨_, _, negPrefField p field now, toggle_pref_step field now hf hp, hfind1,
    prefFlag_negPrefField_same p field now hf,
    fun g hg hne => prefFlag_negPrefField_other p field g now hf hg hne,
    negPrefField_updated_at p field now hf,
    negPrefField_user_id p field now,
    filter_map_update db.prefs (fun q => q.user_id) uid (fun q => negPrefField q field now)
      (fun q => negPrefField_user_id q field now),
    _, _, negPrefField (negPrefField p field now) field now',
    toggle_pref_step field now' hf hfind1,
    prefs_find?_after_toggle field now' hfind1,
    fun g hg => prefFlag_negPrefField_involutive p field g now now' hf hg⟩

/-- Preference row of the C10 witness: all flags at their defaults. -/
def prefRow1 : PrefsRow :=
  { user_id := 1, notify_results := true, notify_new_video := true, notify_streams := true
    created_at := 0, updated_at := 0 }

/-- Witness for C10: toggling `notify_streams` for participant 1. -/
theorem toggle_pref_frame_witness :
    ∃ v db1 q, toggle_pref ⟨[], [], [prefRow1]⟩ 1 "notify_streams" 5 = (.ok v, db1) ∧
      db1.prefs.find? (fun x => x.user_id == 1) = some q ∧
      prefFlag q "notify_streams" = ! prefFlag prefRow1 "notify_streams" ∧
      (∀ g ∈ prefFields, g ≠ "notify_streams" → prefFlag q g = prefFlag prefRow1 g) ∧
      q.updated_at = 5 ∧ q.user_id = prefRow1.user_id ∧
      db1.prefs.filter (fun x => !(x.user_id == 1)) =
        (⟨[], [], [prefRow1]⟩ : DB).prefs.filter (fun x => !(x.user_id == 1)) ∧
      ∃ v2 db2 q2, toggle_pref db1 1 "notify_streams" 6 = (.ok v2, db2) ∧
        db2.prefs.find? (fun x => x.user_id == 1) = some q2 ∧
        ∀ g ∈ prefFields, prefFlag q2 g = prefFlag prefRow1 g :=
  toggle_pref_frame ⟨[], [], [prefRow1]⟩ 1 "notify_streams" 5 6 prefRow1
    (by decide) (by decide)

end Moozee
